import Mathlib

/-!
Verification of the Urho3D CJK font subsystem (Source/Engine/UI/Font.cpp,
Font.h): the texture-atlas allocator, the TTF kerning-table parser, the
static glyph population pass, and the LRU dynamic-glyph cache of
FontFaceTTF.  All definitions are shallow embeddings of the C++ source;
the external FreeType rasterizer and the GPU texture sink are passed in as
parameters (functions and flags), matching the capability interfaces the
code uses.
-/

namespace UrhoFont

/-! ## Basic machine-integer helpers -/

/-- Truncation of an integer to a signed 16-bit value, the effect of the
C cast `(short)` used throughout Font.cpp. -/
def toInt16 (n : Int) : Int := (n + 32768) % 65536 - 32768

/-- Arithmetic right shift by 6 on a (signed) FreeType 26.6 fixed-point
value, the `>> 6` of Font.cpp (floor division by 64). -/
def asr6 (x : Int) : Int := Int.fdiv x 64

/-! ## Association lists

`HashMap` fields of the C++ code (`glyphMapping_`, `kerningMapping_`,
`mutableGlyphMapping_`, `glyphIndexToCharCodeMapping`) are embedded as
association lists with insert-or-replace assignment. -/

def lookupAssoc {α : Type} : List (Nat × α) → Nat → Option α
  | [], _ => none
  | p :: rest, k => if p.1 = k then some p.2 else lookupAssoc rest k

/-- Lookup with a default value; `HashMap::operator[]` on a missing key
yields a default-constructed value (0). -/
def lookupD {α : Type} (m : List (Nat × α)) (k : Nat) (d : α) : α :=
  (lookupAssoc m k).getD d

/-- Removal of a key, the `HashMap::Erase` of the C++ code. -/
def eraseKey {α : Type} (k : Nat) (m : List (Nat × α)) : List (Nat × α) :=
  m.filter (fun p => p.1 != k)

/-- Insert-or-replace assignment, the `map[key] = value` of the C++ code. -/
def insertAssoc {α : Type} (k : Nat) (v : α) (m : List (Nat × α)) : List (Nat × α) :=
  (k, v) :: eraseKey k m

/-! ## The atlas allocator

Modelled from the spec: the AreaAllocator implementation is not under
src/ (Font.cpp and Font.h only construct and call it).  Spec section 4.1:
a 2-D rectangle packer that places axis-aligned rectangles into a canvas
starting at a minimum size, growing (doubling, clamped to a hard maximum
in each dimension) automatically when a request does not fit, failing only
once the maximum canvas size is exhausted, with no deallocation.  The
packing discipline is a shelf packer: rectangles fill the current shelf
left to right, and a new shelf opens below when the current one is full. -/
structure AreaAllocator where
  width : Nat
  height : Nat
  maxWidth : Nat
  maxHeight : Nat
  oX : Nat
  oY : Nat
  rowHeight : Nat
deriving DecidableEq

/-- Modelled from the spec: a fresh allocator over a canvas of the given
initial size, growable to the given maximum size. -/
def AreaAllocator.init (w h maxW maxH : Nat) : AreaAllocator :=
  { width := w, height := h, maxWidth := maxW, maxHeight := maxH,
    oX := 0, oY := 0, rowHeight := 0 }

/-- Modelled from the spec: one placement attempt inside the current
canvas bounds, without growth.  Either the rectangle fits at the cursor of
the current shelf, or a new shelf is opened below the current one. -/
def tryPlace (w h : Nat) (a : AreaAllocator) : Option (Nat × Nat × AreaAllocator) :=
  if a.oX + w ≤ a.width ∧ a.oY + h ≤ a.height then
    some (a.oX, a.oY, { a with oX := a.oX + w, rowHeight := max a.rowHeight h })
  else if w ≤ a.width ∧ a.oY + a.rowHeight + h ≤ a.height then
    some (0, a.oY + a.rowHeight,
      { a with oX := w, oY := a.oY + a.rowHeight, rowHeight := h })
  else none

/-- Modelled from the spec: canvas growth by doubling the width, clamped
to the hard maximum. -/
def growWidth (a : AreaAllocator) : AreaAllocator :=
  { a with width := min (max (2 * a.width) (a.width + 1)) a.maxWidth }

/-- Modelled from the spec: canvas growth by doubling the height, clamped
to the hard maximum. -/
def growHeight (a : AreaAllocator) : AreaAllocator :=
  { a with width := a.width,
           height := min (max (2 * a.height) (a.height + 1)) a.maxHeight }

/-- Modelled from the spec: placement with automatic growth on failure.
The fuel bounds the number of growth attempts; every growth step enlarges
the canvas by at least one unit in one dimension, so
`maxWidth + maxHeight` growth steps always suffice. -/
def allocateAux (w h : Nat) : Nat → AreaAllocator → Option (Nat × Nat × AreaAllocator)
  | 0, a => tryPlace w h a
  | fuel + 1, a =>
    match tryPlace w h a with
    | some r => some r
    | none =>
      if a.width < a.maxWidth then allocateAux w h fuel (growWidth a)
      else if a.height < a.maxHeight then allocateAux w h fuel (growHeight a)
      else none

/-- Modelled from the spec: `AreaAllocator::Allocate(width, height)`.
Returns the placed position and the updated allocator, or `none` once the
maximum canvas size is exhausted. -/
def allocate (w h : Nat) (a : AreaAllocator) : Option (Nat × Nat × AreaAllocator) :=
  allocateAux w h (a.maxWidth + a.maxHeight) a

/-- An axis-aligned rectangle placed in the atlas. -/
structure Rect where
  x : Nat
  y : Nat
  w : Nat
  h : Nat
deriving DecidableEq

/-- Two placed rectangles do not overlap: they are separated along at
least one axis. -/
def RectDisjoint (r₁ r₂ : Rect) : Prop :=
  r₁.x + r₁.w ≤ r₂.x ∨ r₂.x + r₂.w ≤ r₁.x ∨
  r₁.y + r₁.h ≤ r₂.y ∨ r₂.y + r₂.h ≤ r₁.y

/-- The packing invariant of one placed rectangle against the allocator
cursor: the rectangle either lies wholly above the current shelf, or it
lies in the current shelf, within the shelf's height and to the left of
the cursor. -/
def cellInv (a : AreaAllocator) (r : Rect) : Prop :=
  r.y + r.h ≤ a.oY ∨
  (r.y = a.oY ∧ r.y + r.h ≤ a.oY + a.rowHeight ∧ r.x + r.w ≤ a.oX)

/-- One allocation request folded over the allocator together with the
list of rectangles returned so far; a failed request leaves the state
unchanged. -/
def allocStep (st : AreaAllocator × List Rect) (req : Nat × Nat) :
    AreaAllocator × List Rect :=
  match allocate req.1 req.2 st.1 with
  | some (x, y, a') => (a', ⟨x, y, req.1, req.2⟩ :: st.2)
  | none => st

/-- A sequence of allocation requests against one allocator instance,
collecting every successfully returned rectangle. -/
def allocRun (reqs : List (Nat × Nat)) (a : AreaAllocator) :
    AreaAllocator × List Rect :=
  reqs.foldl allocStep (a, [])

/-- The allocator-run invariant: the rectangles returned so far are
pairwise disjoint and each satisfies the packing invariant against the
current cursor. -/
def AllocInv (st : AreaAllocator × List Rect) : Prop :=
  st.2.Pairwise RectDisjoint ∧ ∀ r ∈ st.2, cellInv st.1 r

/-! ## Glyphs and rasterizer output -/

/-- The `FontGlyph` struct of Font.h: atlas placement, pixel size,
pen offsets, horizontal advance and atlas page. -/
structure FontGlyph where
  x : Int
  y : Int
  width : Int
  height : Int
  offsetX : Int
  offsetY : Int
  advanceX : Int
  page : Nat
deriving DecidableEq

/-- The `MutableFontGlyph` struct of Font.h: a `FontGlyph` extended with
the character-code tag of the cell (0 when the cell is unoccupied).  The
position marker in the LRU list is represented by the cell's identifier
appearing in the order list of the face state. -/
structure MutableFontGlyph extends FontGlyph where
  charCode : Nat
deriving DecidableEq

/-- Raw FreeType glyph-slot metrics in 26.6 fixed point, as produced by
`FT_Load_Glyph` / `FT_Load_Char` (the external rasterizer collaborator). -/
structure RawMetrics where
  width : Nat
  height : Nat
  horiBearingX : Int
  horiBearingY : Int
  horiAdvance : Int
deriving DecidableEq

/-- Glyph geometry computed from raw metrics, Font.cpp lines 243-247: each
26.6 value is shifted right by 6 and truncated to `short`; `offsetY` is
computed from the face ascender. -/
def mkStaticGlyph (m : RawMetrics) (asc : Int) (x y : Nat) : FontGlyph :=
  { x := (x : Int), y := (y : Int),
    width := toInt16 (Int.ofNat (m.width / 64)),
    height := toInt16 (Int.ofNat (m.height / 64)),
    offsetX := toInt16 (asr6 m.horiBearingX),
    offsetY := toInt16 (asr6 (asc - m.horiBearingY)),
    advanceX := toInt16 (asr6 m.horiAdvance),
    page := 0 }

/-- The zero-geometry placeholder glyph recorded when rasterization of a
single character fails during the population pass (Font.cpp lines
286-295). -/
def zeroGlyph : FontGlyph :=
  { x := 0, y := 0, width := 0, height := 0,
    offsetX := 0, offsetY := 0, advanceX := 0, page := 0 }

/-- A pre-allocated, still unoccupied dynamic cell at a fixed atlas
position (Font.cpp lines 383-390; the geometry fields are not written by
the constructor and are modelled as zero). -/
def freshCell (x y : Nat) : MutableFontGlyph :=
  { x := (x : Int), y := (y : Int), width := 0, height := 0,
    offsetX := 0, offsetY := 0, advanceX := 0, page := 0, charCode := 0 }

/-- Pointwise update of the cell store at one cell identifier. -/
def updFun (f : Nat → MutableFontGlyph) (i : Nat) (g : MutableFontGlyph) :
    Nat → MutableFontGlyph :=
  fun j => if j = i then g else f j

/-! ## Kerning: key packing, lookup and the binary table parser -/

/-- The packed key `(c << 16) + d` on 32-bit unsigned arithmetic used for
`kerningMapping_` (Font.cpp lines 140 and 365). -/
def kernKey (c d : Nat) : Nat := (c * 65536 + d) % 4294967296

/-- `FontFace::GetKerning` (Font.cpp lines 132-145): zero when the kerning
map is empty, zero when either character is the line break `'\n'` (10),
otherwise the stored amount for the packed pair key, defaulting to zero. -/
def getKerning (km : List (Nat × Int)) (c d : Nat) : Int :=
  if km.isEmpty then 0
  else if c = 10 ∨ d = 10 then 0
  else
    match lookupAssoc km (kernKey c d) with
    | some v => v
    | none => 0

/-- Byte-pair swap applied to the raw kerning table before parsing
(Font.cpp lines 332-334): FreeType delivers the table big-endian and every
16-bit word is byte-swapped to little-endian. -/
def swapPairs : List Nat → List Nat
  | b0 :: b1 :: rest => b1 :: b0 :: swapPairs rest
  | rest => rest

/-- `Deserializer::ReadUShort` on the byte-swapped buffer: two bytes,
little endian.  A read past the end of the buffer fails. -/
def readU16 : List Nat → Option (Nat × List Nat)
  | b0 :: b1 :: rest => some (b0 + 256 * b1, rest)
  | _ => none

/-- `Deserializer::ReadShort`: the same two bytes interpreted as a signed
16-bit value. -/
def readS16 (bs : List Nat) : Option (Int × List Nat) :=
  match readU16 bs with
  | some (v, rest) => some (toInt16 (Int.ofNat v), rest)
  | none => none

/-- The inner pair loop of the kerning parser (Font.cpp lines 356-367):
each pair holds two glyph indices and a signed amount; the amount is
scaled (the `float factor` is passed in as the integer scaling function it
induces) and truncated to `short`; nonzero amounts are inserted under the
packed char-code key, resolving glyph indices through the
glyph-index-to-char-code map with default 0. -/
def parsePairs (idx : List (Nat × Nat)) (scale : Int → Int) :
    Nat → List Nat → List (Nat × Int) → Option (List (Nat × Int) × List Nat)
  | 0, bs, m => some (m, bs)
  | n + 1, bs, m =>
    match readU16 bs with
    | none => none
    | some (left, bs₁) =>
      match readU16 bs₁ with
      | none => none
      | some (right, bs₂) =>
        match readS16 bs₂ with
        | none => none
        | some (raw, bs₃) =>
          let amount := toInt16 (scale raw)
          let m' :=
            if amount ≠ 0 then
              insertAssoc (kernKey (lookupD idx left 0) (lookupD idx right 0)) amount m
            else m
          parsePairs idx scale n bs₃ m'

/-- The subtable loop of the kerning parser (Font.cpp lines 348-374): each
subtable starts with `version`, `length` (unused) and `coverage`; the pair
list is parsed only when `version = 0` and `coverage = 1`, and any other
combination aborts the whole parse. -/
def parseSubtables (idx : List (Nat × Nat)) (scale : Int → Int) :
    Nat → List Nat → List (Nat × Int) → Option (List (Nat × Int) × List Nat)
  | 0, bs, m => some (m, bs)
  | n + 1, bs, m =>
    match readU16 bs with
    | none => none
    | some (v, bs₁) =>
      match readU16 bs₁ with
      | none => none
      | some (_, bs₂) =>
        match readU16 bs₂ with
        | none => none
        | some (cov, bs₃) =>
          if v = 0 ∧ cov = 1 then
            match readU16 bs₃ with
            | none => none
            | some (np, bs₄) =>
              match parsePairs idx scale np bs₄ m with
              | none => none
              | some (m', bs₅) => parseSubtables idx scale n bs₅ m'
          else none

/-- The two-byte little-endian encoding of a 16-bit word as it appears in
the byte-swapped kerning stream. -/
def u16bytes (x : Nat) : List Nat := [x % 256, x / 256]

/-- The whole kerning-table parse (Font.cpp lines 332-375): byte-swap the
raw table, check the header version is 0, read the subtable count and
parse every subtable. -/
def buildKerningMapping (idx : List (Nat × Nat)) (scale : Int → Int)
    (bytes : List Nat) : Option (List (Nat × Int)) :=
  match readU16 (swapPairs bytes) with
  | none => none
  | some (version, bs₁) =>
    if version ≠ 0 then none
    else
      match readU16 bs₁ with
      | none => none
      | some (numTables, bs₂) =>
        match parseSubtables idx scale numTables bs₂ [] with
        | none => none
        | some (m, _) => some m

/-! ## Texture sizing -/

/-- The point-size tier table of `FontFaceTTF::CalculateTextureSize`
(Font.cpp lines 471-480): starting from 2048 in each dimension, the
maximum width is halved when the point size is below 32 and again below
16, and the maximum height is halved when the point size is below 22 and
again below 11. -/
def calculateMaxTextureSize (pointSize : Int) : Nat × Nat :=
  let w₁ := if pointSize < 32 then 2048 / 2 else 2048
  let h₁ := if pointSize < 22 then 2048 / 2 else 2048
  let w₂ := if pointSize < 16 then w₁ / 2 else w₁
  let h₂ := if pointSize < 11 then h₁ / 2 else h₁
  (w₂, h₂)

/-- The tier table as the specification describes it, written from the
spec's words for comparison with the source's `calculateMaxTextureSize`:
width halved below 16 and again below 11, height halved below 32 and
again below 22. -/
def specClaimMaxTextureSize (pointSize : Int) : Nat × Nat :=
  let w₁ := if pointSize < 16 then 2048 / 2 else 2048
  let w₂ := if pointSize < 11 then w₁ / 2 else w₁
  let h₁ := if pointSize < 32 then 2048 / 2 else 2048
  let h₂ := if pointSize < 22 then h₁ / 2 else h₁
  (w₂, h₂)

/-- The tier table with the thresholds the code actually uses, written in
the spec's phrasing; the amended form of the claim. -/
def amendedMaxTextureSize (pointSize : Int) : Nat × Nat :=
  let w₁ := if pointSize < 32 then 2048 / 2 else 2048
  let w₂ := if pointSize < 16 then w₁ / 2 else w₁
  let h₁ := if pointSize < 22 then 2048 / 2 else 2048
  let h₂ := if pointSize < 11 then h₁ / 2 else h₁
  (w₂, h₂)

/-- One character of the sizing pass of `FontFaceTTF::CalculateTextureSize`
(Font.cpp lines 484-509): characters whose metrics cannot be loaded are
skipped; while every glyph has fit so far, a padded trial rectangle is
allocated and a failure clears the full-coverage flag; the maximum padded
glyph width and height are tracked throughout.  The state is
(trial allocator, full-coverage flag, max glyph width, max glyph height). -/
def sizingStep (rastGlyph : Nat → Option RawMetrics)
    (st : AreaAllocator × Bool × Nat × Nat) (ch : Nat × Nat) :
    AreaAllocator × Bool × Nat × Nat :=
  match rastGlyph ch.2 with
  | none => st
  | some m =>
    let w := m.width / 64
    let h := m.height / 64
    let next :=
      if st.2.1 then
        match allocate (w + 1) (h + 1) st.1 with
        | some (_, _, a') => (a', true)
        | none => (st.1, false)
      else (st.1, false)
    (next.1, next.2, max st.2.2.1 (w + 1), max st.2.2.2 (h + 1))

/-- `FontFaceTTF::CalculateTextureSize` (Font.cpp lines 465-515): runs the
sizing pass over the font's character enumeration against a trial
allocator growing from 128 by 128 up to the tier maximum, and returns the
final canvas extent, the full-coverage flag, and the maximum padded glyph
dimensions. -/
def calculateTextureSize (rastGlyph : Nat → Option RawMetrics)
    (chars : List (Nat × Nat)) (pointSize : Int) :
    Nat × Nat × Bool × Nat × Nat :=
  let mx := calculateMaxTextureSize pointSize
  let st := chars.foldl (sizingStep rastGlyph) (AreaAllocator.init 128 128 mx.1 mx.2, true, 0, 0)
  (st.1.width, st.1.height, st.2)

/-! ## Static population pass -/

/-- The glyph population loop of `FontFaceTTF::Load` (Font.cpp lines
230-304, without the pixel blits): each enumerated (charCode, glyphIndex)
pair is processed when the face is full-coverage or the char code is below
`MAX_ASCII_CODE` (127); a successful rasterization allocates a padded
rectangle (an allocation failure aborts the whole load) and records the
glyph, and a failed rasterization records the zero placeholder glyph; the
glyph is inserted into the static glyph map either way. -/
def populateStatic (rastGlyph : Nat → Option RawMetrics) (loadAll : Bool) (asc : Int) :
    List (Nat × Nat) → AreaAllocator → List (Nat × FontGlyph) →
    Option (List (Nat × FontGlyph) × AreaAllocator)
  | [], a, gm => some (gm, a)
  | ch :: rest, a, gm =>
    if loadAll = true ∨ ch.1 < 127 then
      match rastGlyph ch.2 with
      | some m =>
        let g₀ := mkStaticGlyph m asc 0 0
        match allocate (g₀.width + 1).toNat (g₀.height + 1).toNat a with
        | some (x, y, a') =>
          populateStatic rastGlyph loadAll asc rest a'
            (insertAssoc ch.1 { g₀ with x := (x : Int), y := (y : Int) } gm)
        | none => none
      | none =>
        populateStatic rastGlyph loadAll asc rest a (insertAssoc ch.1 zeroGlyph gm)
    else populateStatic rastGlyph loadAll asc rest a gm

/-- The glyph-index to char-code map collected during the population loop
when the face has kerning (Font.cpp lines 300-301). -/
def buildGlyphIndexMapping (chars : List (Nat × Nat)) : List (Nat × Nat) :=
  chars.foldl (fun m ch => insertAssoc ch.2 ch.1 m) []

/-! ## The dynamic glyph cache -/

/-- The state of a loaded `FontFaceTTF` relevant to glyph and kerning
queries: the static glyph map, the kerning map, the LRU list of dynamic
cell identifiers (most recently used at the head), the cell store, the map
from active character code to owning cell, the face ascender, and the log
of texture sub-region uploads issued so far (most recent first). -/
structure TTFFaceState where
  glyphMapping : List (Nat × FontGlyph)
  kerningMapping : List (Nat × Int)
  order : List Nat
  cells : Nat → MutableFontGlyph
  mutableMapping : List (Nat × Nat)
  ascender : Int
  uploads : List (Int × Int × Nat)

/-- Move a cell to the head of the LRU list: the
`Erase(iterator); PushFront` pair of Font.cpp (lines 407-409 and
422-424). -/
def moveFront (i : Nat) (l : List Nat) : List Nat := i :: l.erase i

/-- `FontFaceTTF::GetGlyph` (Font.cpp lines 397-463).  The result is the
returned glyph (null as `none`), the state after the call, and the number
of rasterizer invocations performed.  Queries for which the dynamic list
is empty or the char code is at most `MAX_ASCII_CODE` (127) go to the
static map and change nothing.  A hit in the dynamic map moves the owning
cell to the head of the LRU list.  A miss first rasterizes (a failure
returns null with the state untouched), then reuses the tail cell: the
cell moves to the head, the old char-code mapping is erased when the cell
was occupied, the new mapping is inserted, the cell's tag and geometry are
rewritten and its atlas region is re-uploaded. -/
def ttfGetGlyph (rast : Nat → Option RawMetrics) (s : TTFFaceState) (c : Nat) :
    Option FontGlyph × TTFFaceState × Nat :=
  if s.order = [] ∨ c ≤ 127 then
    (lookupAssoc s.glyphMapping c, s, 0)
  else
    match lookupAssoc s.mutableMapping c with
    | some cid =>
      (some (s.cells cid).toFontGlyph,
       { s with order := moveFront cid s.order }, 0)
    | none =>
      match rast c with
      | none => (none, s, 1)
      | some m =>
        let cid := s.order.getLastD 0
        let old := s.cells cid
        let m₁ :=
          if old.charCode ≠ 0 then eraseKey old.charCode s.mutableMapping
          else s.mutableMapping
        let g : MutableFontGlyph :=
          { x := old.x, y := old.y, page := old.page,
            width := toInt16 (Int.ofNat (m.width / 64)),
            height := toInt16 (Int.ofNat (m.height / 64)),
            offsetX := toInt16 (asr6 m.horiBearingX),
            offsetY := toInt16 (asr6 (s.ascender - m.horiBearingY)),
            advanceX := toInt16 (asr6 m.horiAdvance),
            charCode := c }
        (some g.toFontGlyph,
         { s with order := moveFront cid s.order,
                  mutableMapping := insertAssoc c cid m₁,
                  cells := updFun s.cells cid g,
                  uploads := (old.x, old.y, c) :: s.uploads }, 1)

/-- A sequence of glyph requests, threading the face state. -/
def runRequests (rast : Nat → Option RawMetrics) (s : TTFFaceState)
    (cs : List Nat) : TTFFaceState :=
  cs.foldl (fun st c => (ttfGetGlyph rast st c).2.1) s

/-- A freshly constructed dynamic cache of `n` cells: distinct cell
identifiers, an empty char-code map, and every cell unoccupied
(char-code tag 0). -/
def IsFreshCache (s : TTFFaceState) (n : Nat) : Prop :=
  s.order.Nodup ∧ s.order.length = n ∧ s.mutableMapping = [] ∧
  ∀ i ∈ s.order, (s.cells i).charCode = 0

/-! ## The whole face load -/

/-- The external collaborators and inputs of `FontFaceTTF::Load`: the
requested point size, the font byte count, whether FreeType opened the
face, the character enumeration as (charCode, glyphIndex) pairs, the
rasterizer by glyph index, the kerning flag and raw kerning table, the
face ascender, and the kerning scale factor as the integer function it
induces, plus whether texture creation succeeds. -/
structure LoadEnv where
  pointSize : Int
  fontDataSize : Nat
  openOk : Bool
  chars : List (Nat × Nat)
  rastGlyph : Nat → Option RawMetrics
  hasKerning : Bool
  kernTable : Option (List Nat)
  ascender : Int
  scale : Int → Int
  textureOk : Bool

/-- The dynamic-cell pre-allocation loop of `FontFaceTTF::Load` (Font.cpp
lines 377-392): cells of the uniform maximum glyph size are allocated
until the allocator is exhausted, each pushed to the front of the LRU
list.  Fuel bounds the loop; the caller passes one more than the canvas
area, which successful unit-or-larger allocations cannot exceed. -/
def preallocCells (mgw mgh : Nat) :
    Nat → AreaAllocator → List Nat → (Nat → MutableFontGlyph) → Nat →
    List Nat × (Nat → MutableFontGlyph)
  | 0, _, ord, cells, _ => (ord, cells)
  | fuel + 1, a, ord, cells, nextId =>
    match allocate mgw mgh a with
    | none => (ord, cells)
    | some (x, y, a') =>
      preallocCells mgw mgh fuel a' (nextId :: ord)
        (updFun cells nextId (freshCell x y)) (nextId + 1)

/-- `FontFaceTTF::Load` (Font.cpp lines 183-395): input checks, face
creation, texture sizing, the static population pass, texture creation,
the kerning parse (all-or-nothing), and — for a partial-coverage face —
the dynamic-cell pre-allocation from the same live allocator.  Any phase
failure yields `none` (no face produced). -/
def ttfLoad (env : LoadEnv) : Option TTFFaceState :=
  if env.pointSize ≤ 0 then none
  else if env.fontDataSize = 0 then none
  else if env.openOk = false then none
  else
    let sz := calculateTextureSize env.rastGlyph env.chars env.pointSize
    let texW := sz.1
    let texH := sz.2.1
    let loadAll := sz.2.2.1
    let mgw := sz.2.2.2.1
    let mgh := sz.2.2.2.2
    match populateStatic env.rastGlyph loadAll env.ascender env.chars
        (AreaAllocator.init texW texH texW texH) [] with
    | none => none
    | some (gm, a₁) =>
      if env.textureOk = false then none
      else
        match
          (if env.hasKerning then
            match env.kernTable with
            | none => none
            | some bytes =>
              buildKerningMapping (buildGlyphIndexMapping env.chars) env.scale bytes
          else some []) with
        | none => none
        | some km =>
          let pre :=
            if loadAll then ([], fun _ => freshCell 0 0)
            else preallocCells mgw mgh (texW * texH + 1) a₁ [] (fun _ => freshCell 0 0) 0
          some { glyphMapping := gm, kerningMapping := km, order := pre.1,
                 cells := pre.2, mutableMapping := [], ascender := env.ascender,
                 uploads := [] }

/-- A concrete face state with a fresh two-cell dynamic cache, used to
instantiate theorems with hypotheses at a concrete input. -/
def sampleFreshState : TTFFaceState :=
  { glyphMapping := [], kerningMapping := [], order := [0, 1],
    cells := fun _ => freshCell 0 0, mutableMapping := [],
    ascender := 0, uploads := [] }

/-- A concrete rasterizer that succeeds on every character code. -/
def sampleRast : Nat → Option RawMetrics :=
  fun _ => some { width := 640, height := 640, horiBearingX := 0,
                  horiBearingY := 0, horiAdvance := 704 }

/-- A concrete rasterizer that fails on every character code. -/
def sampleRastFail : Nat → Option RawMetrics := fun _ => none

/-- The synthetic binary kerning table of the round-trip property, as the
big-endian bytes FreeType would hand over: header version 0 and one
subtable with version 0, length 14, coverage 1 and a single pair mapping
glyph index 1 to glyph index 2 with amount 5. -/
def kernTableSample : List Nat :=
  [0, 0, 0, 1, 0, 0, 0, 14, 0, 1, 0, 1, 0, 1, 0, 2, 0, 5]

/-- The same synthetic table with the subtable coverage field set to 3
(bit 0 set together with bit 1). -/
def kernTableSampleCov3 : List Nat :=
  [0, 0, 0, 1, 0, 0, 0, 14, 0, 3, 0, 1, 0, 1, 0, 2, 0, 5]

/-! ## Association-list lemmas -/

theorem lookupAssoc_cons {α : Type} (k : Nat) (v : α) (m : List (Nat × α)) (j : Nat) :
    lookupAssoc ((k, v) :: m) j = if k = j then some v else lookupAssoc m j := rfl

theorem eraseKey_cons_self {α : Type} (a : Nat) (v : α) (rest : List (Nat × α)) :
    eraseKey a ((a, v) :: rest) = eraseKey a rest := by
  simp [eraseKey, List.filter_cons]

theorem eraseKey_cons_ne {α : Type} {k a : Nat} (v : α) (rest : List (Nat × α))
    (h : a ≠ k) : eraseKey k ((a, v) :: rest) = (a, v) :: eraseKey k rest := by
  simp [eraseKey, List.filter_cons, h]

theorem lookupAssoc_eraseKey {α : Type} (k : Nat) (m : List (Nat × α)) (j : Nat) :
    lookupAssoc (eraseKey k m) j = if j = k then none else lookupAssoc m j := by
  induction m with
  | nil => simp [eraseKey, lookupAssoc]
  | cons p rest ih =>
    rcases p with ⟨a, v⟩
    by_cases hak : a = k
    · subst hak
      rw [eraseKey_cons_self, ih]
      by_cases hja : j = a
      · simp [hja]
      · rw [if_neg hja, if_neg hja, lookupAssoc_cons, if_neg (fun h => hja h.symm)]
    · rw [eraseKey_cons_ne v rest hak, lookupAssoc_cons, ih]
      by_cases haj : a = j
      · subst haj
        rw [if_pos rfl, if_neg hak, lookupAssoc_cons, if_pos rfl]
      · rw [if_neg haj]
        by_cases hjk : j = k
        · simp [hjk]
        · rw [if_neg hjk, if_neg hjk, lookupAssoc_cons, if_neg haj]

theorem lookupAssoc_eraseKey_self {α : Type} (k : Nat) (m : List (Nat × α)) :
    lookupAssoc (eraseKey k m) k = none := by
  simp [lookupAssoc_eraseKey]

theorem lookupAssoc_eraseKey_ne {α : Type} {k j : Nat} (m : List (Nat × α))
    (h : j ≠ k) : lookupAssoc (eraseKey k m) j = lookupAssoc m j := by
  simp [lookupAssoc_eraseKey, h]

theorem eraseKey_of_lookup_none {α : Type} {k : Nat} {m : List (Nat × α)}
    (h : lookupAssoc m k = none) : eraseKey k m = m := by
  induction m with
  | nil => rfl
  | cons p rest ih =>
    rcases p with ⟨a, v⟩
    by_cases hak : a = k
    · rw [show lookupAssoc ((a, v) :: rest) k = some v from by
        rw [lookupAssoc_cons, if_pos hak]] at h
      exact absurd h (by simp)
    · have h' : lookupAssoc rest k = none := by
        rwa [lookupAssoc_cons, if_neg hak] at h
      rw [eraseKey_cons_ne v rest hak, ih h']

theorem lookupAssoc_insertAssoc_self {α : Type} (k : Nat) (v : α) (m : List (Nat × α)) :
    lookupAssoc (insertAssoc k v m) k = some v := by
  simp [insertAssoc, lookupAssoc]

theorem lookupAssoc_insertAssoc_ne {α : Type} {k j : Nat} (v : α) (m : List (Nat × α))
    (h : k ≠ j) : lookupAssoc (insertAssoc k v m) j = lookupAssoc m j := by
  simp [insertAssoc, lookupAssoc, h, lookupAssoc_eraseKey_ne m (fun hj => h hj.symm)]

theorem lookupAssoc_zip_none {c : Nat} :
    ∀ (l₁ l₂ : List Nat), c ∉ l₁ → lookupAssoc (l₁.zip l₂) c = none
  | [], _, _ => rfl
  | _ :: _, [], _ => rfl
  | a :: r₁, b :: r₂, hc => by
    simp only [List.mem_cons, not_or] at hc
    rw [List.zip_cons_cons, lookupAssoc_cons, if_neg (fun h => hc.1 h.symm)]
    exact lookupAssoc_zip_none r₁ r₂ hc.2

theorem lookupAssoc_zip_isSome {c : Nat} :
    ∀ (l₁ l₂ : List Nat), c ∈ l₁ → l₁.length ≤ l₂.length →
      (lookupAssoc (l₁.zip l₂) c).isSome = true
  | [], _, hc, _ => absurd hc (by simp)
  | _ :: _, [], _, hl => by simp at hl
  | a :: r₁, b :: r₂, hc, hl => by
    rw [List.zip_cons_cons, lookupAssoc_cons]
    by_cases hac : a = c
    · rw [if_pos hac]; rfl
    · rw [if_neg hac]
      rcases List.mem_cons.mp hc with h | h
      · exact absurd h.symm hac
      · simp only [List.length_cons, Nat.add_le_add_iff_right] at hl
        exact lookupAssoc_zip_isSome r₁ r₂ h hl

theorem updFun_same (f : Nat → MutableFontGlyph) (i : Nat) (g : MutableFontGlyph) :
    updFun f i g i = g := by simp [updFun]

theorem updFun_ne (f : Nat → MutableFontGlyph) {i j : Nat} (g : MutableFontGlyph)
    (h : j ≠ i) : updFun f i g j = f j := by simp [updFun, h]

/-! ## Unfolding lemmas for the four paths of FontFaceTTF::GetGlyph -/

theorem ttfGetGlyph_static (rast : Nat → Option RawMetrics) (s : TTFFaceState) (c : Nat)
    (h : s.order = [] ∨ c ≤ 127) :
    ttfGetGlyph rast s c = (lookupAssoc s.glyphMapping c, s, 0) := by
  unfold ttfGetGlyph
  rw [if_pos h]

theorem ttfGetGlyph_hit (rast : Nat → Option RawMetrics) (s : TTFFaceState) (c cid : Nat)
    (ho : ¬ s.order = []) (hc : 127 < c)
    (hlk : lookupAssoc s.mutableMapping c = some cid) :
    ttfGetGlyph rast s c =
      (some (s.cells cid).toFontGlyph, { s with order := moveFront cid s.order }, 0) := by
  unfold ttfGetGlyph
  rw [if_neg (by push_neg; exact ⟨ho, by omega⟩), hlk]

theorem ttfGetGlyph_missfail (rast : Nat → Option RawMetrics) (s : TTFFaceState) (c : Nat)
    (ho : ¬ s.order = []) (hc : 127 < c)
    (hlk : lookupAssoc s.mutableMapping c = none) (hr : rast c = none) :
    ttfGetGlyph rast s c = (none, s, 1) := by
  unfold ttfGetGlyph
  rw [if_neg (by push_neg; exact ⟨ho, by omega⟩), hlk, hr]

theorem ttfGetGlyph_miss (rast : Nat → Option RawMetrics) (s : TTFFaceState)
    (c : Nat) (m : RawMetrics)
    (ho : ¬ s.order = []) (hc : 127 < c)
    (hlk : lookupAssoc s.mutableMapping c = none) (hr : rast c = some m) :
    ∃ g : MutableFontGlyph, g.charCode = c ∧
      g.x = (s.cells (s.order.getLastD 0)).x ∧
      g.y = (s.cells (s.order.getLastD 0)).y ∧
      ttfGetGlyph rast s c =
        (some g.toFontGlyph,
         { s with order := moveFront (s.order.getLastD 0) s.order,
                  mutableMapping := insertAssoc c (s.order.getLastD 0)
                    (if (s.cells (s.order.getLastD 0)).charCode ≠ 0 then
                       eraseKey (s.cells (s.order.getLastD 0)).charCode s.mutableMapping
                     else s.mutableMapping),
                  cells := updFun s.cells (s.order.getLastD 0) g,
                  uploads := ((s.cells (s.order.getLastD 0)).x,
                              (s.cells (s.order.getLastD 0)).y, c) :: s.uploads }, 1) := by
  unfold ttfGetGlyph
  rw [if_neg (by push_neg; exact ⟨ho, by omega⟩), hlk, hr]
  refine ⟨{ x := (s.cells (s.order.getLastD 0)).x,
            y := (s.cells (s.order.getLastD 0)).y,
            page := (s.cells (s.order.getLastD 0)).page,
            width := toInt16 (Int.ofNat (m.width / 64)),
            height := toInt16 (Int.ofNat (m.height / 64)),
            offsetX := toInt16 (asr6 m.horiBearingX),
            offsetY := toInt16 (asr6 (s.ascender - m.horiBearingY)),
            advanceX := toInt16 (asr6 m.horiAdvance),
            charCode := c }, rfl, rfl, rfl, rfl⟩

/-! ## Claim C9: a failed dynamic-miss rasterization leaves the cache untouched -/

/-- C9: on a dynamic-cache miss whose rasterization fails, GetGlyph
returns null and the state — LRU order, char-code map, every cell, atlas
uploads — is exactly the state before the call (one rasterizer invocation
was made). -/
theorem dynamicMiss_rasterizeFailure_stateUnchanged (rast : Nat → Option RawMetrics)
    (s : TTFFaceState) (c : Nat)
    (ho : s.order ≠ []) (hc : 127 < c)
    (hlk : lookupAssoc s.mutableMapping c = none) (hr : rast c = none) :
    ttfGetGlyph rast s c = (none, s, 1) :=
  ttfGetGlyph_missfail rast s c ho hc hlk hr

/-- C9 witness: the failed-miss theorem at a concrete state and code. -/
theorem dynamicMiss_rasterizeFailure_stateUnchanged_witness :
    (sampleFreshState.order ≠ [] ∧ 127 < 200 ∧
      lookupAssoc sampleFreshState.mutableMapping 200 = none ∧
      sampleRastFail 200 = none) ∧
    ttfGetGlyph sampleRastFail sampleFreshState 200 = (none, sampleFreshState, 1) :=
  ⟨⟨by decide, by decide, rfl, rfl⟩,
   dynamicMiss_rasterizeFailure_stateUnchanged sampleRastFail sampleFreshState 200
     (by decide) (by decide) rfl rfl⟩

/-! ## Claim C3: repeated requests are hits -/

/-- C3: requesting the same character code twice in a row from the
dynamic cache (list nonempty, code above the low range, rasterizer able
to render it) makes the second call a cache hit: zero rasterizations, the
same returned glyph as the first call, and the only state change is the
owning cell moving to the head of the LRU order. -/
theorem dynamicCache_repeatRequest_hit (rast : Nat → Option RawMetrics)
    (s : TTFFaceState) (c : Nat)
    (ho : s.order ≠ []) (hc : 127 < c) (hr : (rast c).isSome = true) :
    (ttfGetGlyph rast (ttfGetGlyph rast s c).2.1 c).2.2 = 0 ∧
    (ttfGetGlyph rast (ttfGetGlyph rast s c).2.1 c).1 = (ttfGetGlyph rast s c).1 ∧
    ((ttfGetGlyph rast s c).1).isSome = true ∧
    ∃ cid, lookupAssoc ((ttfGetGlyph rast s c).2.1).mutableMapping c = some cid ∧
      (ttfGetGlyph rast (ttfGetGlyph rast s c).2.1 c).2.1 =
        { (ttfGetGlyph rast s c).2.1 with
            order := moveFront cid ((ttfGetGlyph rast s c).2.1).order } := by
  obtain ⟨m, hm⟩ := Option.isSome_iff_exists.mp hr
  rcases hcase : lookupAssoc s.mutableMapping c with _ | cid₀
  · obtain ⟨g, hgc, hgx, hgy, hstep⟩ := ttfGetGlyph_miss rast s c m ho hc hcase hm
    set cid := s.order.getLastD 0 with hcid
    set s₁ : TTFFaceState :=
      { s with order := moveFront cid s.order,
               mutableMapping := insertAssoc c cid
                 (if (s.cells cid).charCode ≠ 0 then
                    eraseKey (s.cells cid).charCode s.mutableMapping
                  else s.mutableMapping),
               cells := updFun s.cells cid g,
               uploads := ((s.cells cid).x, (s.cells cid).y, c) :: s.uploads }
      with hs₁
    rw [hstep]
    dsimp only
    have hlk₁ : lookupAssoc s₁.mutableMapping c = some cid := by
      rw [hs₁]
      exact lookupAssoc_insertAssoc_self _ _ _
    have ho₁ : ¬ s₁.order = [] := by
      rw [hs₁]
      simp [moveFront]
    rw [ttfGetGlyph_hit rast s₁ c cid ho₁ hc hlk₁]
    dsimp only
    refine ⟨rfl, ?_, rfl, cid, hlk₁, rfl⟩
    rw [updFun_same]
  · rw [ttfGetGlyph_hit rast s c cid₀ ho hc hcase]
    dsimp only
    rw [ttfGetGlyph_hit rast { s with order := moveFront cid₀ s.order } c cid₀
      (by simp [moveFront]) hc hcase]
    dsimp only
    exact ⟨rfl, rfl, rfl, cid₀, hcase, rfl⟩

/-- C3 witness: the repeat-request theorem at a concrete state, code and
rasterizer. -/
theorem dynamicCache_repeatRequest_hit_witness :
    (sampleFreshState.order ≠ [] ∧ 127 < 200 ∧ (sampleRast 200).isSome = true) ∧
    ((ttfGetGlyph sampleRast (ttfGetGlyph sampleRast sampleFreshState 200).2.1 200).2.2 = 0 ∧
     (ttfGetGlyph sampleRast (ttfGetGlyph sampleRast sampleFreshState 200).2.1 200).1 =
       (ttfGetGlyph sampleRast sampleFreshState 200).1 ∧
     ((ttfGetGlyph sampleRast sampleFreshState 200).1).isSome = true ∧
     ∃ cid, lookupAssoc
         ((ttfGetGlyph sampleRast sampleFreshState 200).2.1).mutableMapping 200 = some cid ∧
       (ttfGetGlyph sampleRast (ttfGetGlyph sampleRast sampleFreshState 200).2.1 200).2.1 =
         { (ttfGetGlyph sampleRast sampleFreshState 200).2.1 with
             order := moveFront cid
               ((ttfGetGlyph sampleRast sampleFreshState 200).2.1).order }) :=
  ⟨⟨by decide, by decide, rfl⟩,
   dynamicCache_repeatRequest_hit sampleRast sampleFreshState 200
     (by decide) (by decide) rfl⟩

/-! ## Claim C4: the point-size tier table -/

/-- C4 counterexample: at point size 20 the code computes a 1024 by 1024
maximum canvas, while the claim's tier rule would give 2048 by 512 — the
claim as stated is false on the code. -/
theorem calculateMaxTextureSize_ne_claim_at_20 :
    calculateMaxTextureSize 20 = (1024, 1024) ∧
    specClaimMaxTextureSize 20 = (2048, 512) ∧
    calculateMaxTextureSize 20 ≠ specClaimMaxTextureSize 20 := by decide

/-- C4 (amended): the maximum canvas starts from 2048 by 2048; the width
is halved if the point size is below 32 and again below 16, and the
height is halved if the point size is below 22 and again below 11. -/
theorem calculateMaxTextureSize_amended (p : Int) :
    calculateMaxTextureSize p = amendedMaxTextureSize p := by
  unfold calculateMaxTextureSize amendedMaxTextureSize
  rfl

/-! ## Claim C5: kerning round trip -/

/-- C5: parsing the synthetic binary kerning table with header version 0,
one subtable with version 0 and coverage 1, and a single pair mapping
glyph A (index 1, char 65) to glyph B (index 2, char 66) with amount 5,
at scale factor 1.0 (the identity on integers), yields a kerning map on
which GetKerning(A, B) returns 5 and GetKerning(B, A) returns 0. -/
theorem kerning_roundtrip_sample :
    (buildKerningMapping [(1, 65), (2, 66)] (fun a => a) kernTableSample).map
      (fun km => (getKerning km 65 66, getKerning km 66 65)) = some (5, 0) := by
  decide

/-! ## Claim C6: kerning defaults -/

/-- C6: GetKerning returns 0 whenever the packed pair key is absent from
the kerning map, and returns 0 whenever either character is the line
break character (10), regardless of the map's contents. -/
theorem getKerning_default_zero (km : List (Nat × Int)) (c d : Nat) :
    (lookupAssoc km (kernKey c d) = none → getKerning km c d = 0) ∧
    ((c = 10 ∨ d = 10) → getKerning km c d = 0) := by
  constructor
  · intro h
    simp [getKerning, h]
  · intro h
    rcases h with h | h <;> subst h <;> simp [getKerning]

/-- C6 witness: on a concrete one-entry map, an absent pair yields 0 and a
line-break character yields 0. -/
theorem getKerning_default_zero_witness :
    (lookupAssoc [(kernKey 65 66, (5 : Int))] (kernKey 70 71) = none ∧
      getKerning [(kernKey 65 66, (5 : Int))] 70 71 = 0) ∧
    getKerning [(kernKey 65 66, (5 : Int))] 10 66 = 0 :=
  ⟨⟨by decide, (getKerning_default_zero [(kernKey 65 66, (5 : Int))] 70 71).1 (by decide)⟩,
    (getKerning_default_zero [(kernKey 65 66, (5 : Int))] 10 66).2 (Or.inl rfl)⟩

/-! ## Population-pass lemmas, claims C8 and C10 -/

theorem populateStatic_lookup_notmem (rastG : Nat → Option RawMetrics) (la : Bool)
    (asc : Int) :
    ∀ (chars : List (Nat × Nat)) (a : AreaAllocator)
      (gm gm' : List (Nat × FontGlyph)) (a' : AreaAllocator) (c : Nat),
      c ∉ chars.map Prod.fst →
      populateStatic rastG la asc chars a gm = some (gm', a') →
      lookupAssoc gm' c = lookupAssoc gm c
  | [], a, gm, gm', a', c, _, hp => by
    simp only [populateStatic, Option.some.injEq, Prod.mk.injEq] at hp
    rw [hp.1]
  | ch :: rest, a, gm, gm', a', c, hc, hp => by
    simp only [List.map_cons, List.mem_cons, not_or] at hc
    have hne : ch.1 ≠ c := fun h => hc.1 h.symm
    simp only [populateStatic] at hp
    split at hp
    · split at hp
      · split at hp
        · rw [populateStatic_lookup_notmem rastG la asc rest _ _ gm' a' c hc.2 hp,
            lookupAssoc_insertAssoc_ne _ _ hne]
        · exact absurd hp (by simp)
      · rw [populateStatic_lookup_notmem rastG la asc rest _ _ gm' a' c hc.2 hp,
          lookupAssoc_insertAssoc_ne _ _ hne]
    · exact populateStatic_lookup_notmem rastG la asc rest _ _ gm' a' c hc.2 hp

theorem populateStatic_partial_lookup_high (rastG : Nat → Option RawMetrics)
    (asc : Int) :
    ∀ (chars : List (Nat × Nat)) (a : AreaAllocator)
      (gm gm' : List (Nat × FontGlyph)) (a' : AreaAllocator) (k : Nat),
      127 ≤ k →
      populateStatic rastG false asc chars a gm = some (gm', a') →
      lookupAssoc gm' k = lookupAssoc gm k
  | [], a, gm, gm', a', k, _, hp => by
    simp only [populateStatic, Option.some.injEq, Prod.mk.injEq] at hp
    rw [hp.1]
  | ch :: rest, a, gm, gm', a', k, hk, hp => by
    simp only [populateStatic] at hp
    split at hp
    · rename_i hcond
      have hne : ch.1 ≠ k := by
        rcases hcond with h | h
        · exact absurd h (by simp)
        · omega
      split at hp
      · split at hp
        · rw [populateStatic_partial_lookup_high rastG asc rest _ _ gm' a' k hk hp,
            lookupAssoc_insertAssoc_ne _ _ hne]
        · exact absurd hp (by simp)
      · rw [populateStatic_partial_lookup_high rastG asc rest _ _ gm' a' k hk hp,
          lookupAssoc_insertAssoc_ne _ _ hne]
    · exact populateStatic_partial_lookup_high rastG asc rest _ _ gm' a' k hk hp

/-- C8: during the full-coverage population pass, a failed rasterization
of one character does not abort the pass: the character is recorded as
the zero-geometry placeholder glyph and the pass continues with the
remaining characters; when the rest of the pass succeeds, the final
static glyph map holds the placeholder under that character. -/
theorem populateStatic_rasterizeFailure_placeholder (rastG : Nat → Option RawMetrics)
    (asc : Int) (c gi : Nat) (rest : List (Nat × Nat)) (a : AreaAllocator)
    (gm : List (Nat × FontGlyph)) (hr : rastG gi = none) :
    populateStatic rastG true asc ((c, gi) :: rest) a gm =
      populateStatic rastG true asc rest a (insertAssoc c zeroGlyph gm) ∧
    (∀ gm' a', c ∉ rest.map Prod.fst →
      populateStatic rastG true asc ((c, gi) :: rest) a gm = some (gm', a') →
      lookupAssoc gm' c = some zeroGlyph) := by
  have hstep : populateStatic rastG true asc ((c, gi) :: rest) a gm =
      populateStatic rastG true asc rest a (insertAssoc c zeroGlyph gm) := by
    simp only [populateStatic]
    rw [if_pos (Or.inl trivial), hr]
  refine ⟨hstep, ?_⟩
  intro gm' a' hcm hp
  rw [hstep] at hp
  rw [populateStatic_lookup_notmem rastG true asc rest a _ gm' a' c hcm hp]
  exact lookupAssoc_insertAssoc_self _ _ _

/-- C8 witness: the placeholder theorem at a concrete failing rasterizer
and enumeration. -/
theorem populateStatic_rasterizeFailure_placeholder_witness :
    sampleRastFail 1 = none ∧
    (populateStatic sampleRastFail true 0 [(65, 1)] (AreaAllocator.init 128 128 128 128) [] =
       populateStatic sampleRastFail true 0 [] (AreaAllocator.init 128 128 128 128)
         (insertAssoc 65 zeroGlyph []) ∧
     (∀ gm' a', 65 ∉ ([] : List (Nat × Nat)).map Prod.fst →
       populateStatic sampleRastFail true 0 [(65, 1)] (AreaAllocator.init 128 128 128 128) [] =
         some (gm', a') →
       lookupAssoc gm' 65 = some zeroGlyph)) :=
  ⟨rfl, populateStatic_rasterizeFailure_placeholder sampleRastFail 0 65 1 []
    (AreaAllocator.init 128 128 128 128) [] rfl⟩

/-- C10: for a partial-coverage face (static table built with the
full-coverage flag off), GetGlyph(127) returns null: the population pass
stores only char codes strictly below 127, while query routing sends
every code at most 127 to the static table, so 127 is neither eagerly
populated nor dynamically rasterizable. -/
theorem partialCoverage_getGlyph_127_none (rastG rast₂ : Nat → Option RawMetrics)
    (asc : Int) (chars : List (Nat × Nat)) (a a' : AreaAllocator)
    (gm' : List (Nat × FontGlyph)) (s : TTFFaceState)
    (hp : populateStatic rastG false asc chars a [] = some (gm', a'))
    (hs : s.glyphMapping = gm') :
    ttfGetGlyph rast₂ s 127 = (none, s, 0) := by
  have h1 : lookupAssoc gm' 127 = none := by
    rw [populateStatic_partial_lookup_high rastG asc chars a [] gm' a' 127 le_rfl hp]
    rfl
  rw [ttfGetGlyph_static rast₂ s 127 (Or.inr le_rfl), hs, h1]

/-- C10 witness: a concrete partial-coverage population over an
enumeration holding char codes 65 and 200 stores only code 65, and
GetGlyph(127) on the resulting face returns null without touching the
state. -/
theorem partialCoverage_getGlyph_127_none_witness :
    populateStatic sampleRast false 0 [(65, 1), (200, 2)]
        (AreaAllocator.init 512 256 512 256) [] =
      some ([(65, { x := 0, y := 0, width := 10, height := 10, offsetX := 0,
                    offsetY := 0, advanceX := 11, page := 0 })],
            { width := 512, height := 256, maxWidth := 512, maxHeight := 256,
              oX := 11, oY := 0, rowHeight := 11 }) ∧
    ttfGetGlyph sampleRastFail
        { sampleFreshState with
            glyphMapping := [(65, { x := 0, y := 0, width := 10, height := 10,
                                    offsetX := 0, offsetY := 0, advanceX := 11,
                                    page := 0 })] } 127 =
      (none,
       { sampleFreshState with
           glyphMapping := [(65, { x := 0, y := 0, width := 10, height := 10,
                                   offsetX := 0, offsetY := 0, advanceX := 11,
                                   page := 0 })] }, 0) :=
  ⟨by decide,
   partialCoverage_getGlyph_127_none sampleRast sampleRastFail 0 [(65, 1), (200, 2)]
     (AreaAllocator.init 512 256 512 256)
     { width := 512, height := 256, maxWidth := 512, maxHeight := 256,
       oX := 11, oY := 0, rowHeight := 11 }
     [(65, { x := 0, y := 0, width := 10, height := 10, offsetX := 0,
             offsetY := 0, advanceX := 11, page := 0 })] _ (by decide) rfl⟩

/-! ## Claim C7: kerning subtable coverage handling -/

theorem readU16_u16bytes (x : Nat) (rest : List Nat) :
    readU16 (u16bytes x ++ rest) = some (x, rest) := by
  simp [u16bytes, readU16, Nat.mod_add_div]

/-- C7 counterexample: coverage 3 has bit 0 set and the subtable version
is 0, yet the parse of the otherwise well-formed synthetic table aborts
with `none` — parsing does not proceed for every bit-0-set coverage. -/
theorem kerningSubtable_coverage3_aborts :
    3 % 2 = 1 ∧
    buildKerningMapping [(1, 65), (2, 66)] (fun a => a) kernTableSampleCov3 = none := by
  decide

/-- C7 (amended): a kerning subtable is parsed only when its version is 0
and its coverage is exactly 1; any other version or coverage value — bit
0 set or not — makes the parse return `none`, and a failed kerning parse
makes the whole face load return `none` (no face produced). -/
theorem kerningSubtable_coverage_check (idx : List (Nat × Nat)) (scale : Int → Int)
    (n v len cov : Nat) (rest : List Nat) (m : List (Nat × Int)) :
    (¬ (v = 0 ∧ cov = 1) →
      parseSubtables idx scale (n + 1)
        (u16bytes v ++ u16bytes len ++ u16bytes cov ++ rest) m = none) ∧
    ((v = 0 ∧ cov = 1) →
      parseSubtables idx scale (n + 1)
        (u16bytes v ++ u16bytes len ++ u16bytes cov ++ rest) m =
        match readU16 rest with
        | none => none
        | some (np, bs₄) =>
          match parsePairs idx scale np bs₄ m with
          | none => none
          | some (m', bs₅) => parseSubtables idx scale n bs₅ m') ∧
    (∀ (env : LoadEnv) (bytes : List Nat), env.hasKerning = true →
      env.kernTable = some bytes →
      buildKerningMapping (buildGlyphIndexMapping env.chars) env.scale bytes = none →
      ttfLoad env = none) := by
  have part1 : ¬ (v = 0 ∧ cov = 1) →
      parseSubtables idx scale (n + 1)
        (u16bytes v ++ u16bytes len ++ u16bytes cov ++ rest) m = none := by
    intro hvc
    unfold parseSubtables
    simp only [u16bytes, List.cons_append, List.nil_append, readU16, Nat.mod_add_div]
    rw [if_neg hvc]
  have part2 : (v = 0 ∧ cov = 1) →
      parseSubtables idx scale (n + 1)
        (u16bytes v ++ u16bytes len ++ u16bytes cov ++ rest) m =
        match readU16 rest with
        | none => none
        | some (np, bs₄) =>
          match parsePairs idx scale np bs₄ m with
          | none => none
          | some (m', bs₅) => parseSubtables idx scale n bs₅ m' := by
    intro hvc
    conv_lhs => unfold parseSubtables
    simp only [u16bytes, List.cons_append, List.nil_append, readU16, Nat.mod_add_div]
    rw [if_pos hvc]
  refine ⟨part1, part2, ?_⟩
  intro env bytes hk ht hb
  unfold ttfLoad
  split
  · rfl
  · split
    · rfl
    · split
      · rfl
      · simp only [hk, ht, hb, if_true, ite_self]
        split <;> rfl

/-- C7 witness: at a concrete subtable header with version 0 and coverage
3 the parse aborts, and at coverage 1 it proceeds into the pair list. -/
theorem kerningSubtable_coverage_check_witness :
    (¬ ((0 : Nat) = 0 ∧ (3 : Nat) = 1)) ∧
    parseSubtables [] (fun a => a) 1
      (u16bytes 0 ++ u16bytes 14 ++ u16bytes 3 ++ []) [] = none :=
  ⟨by decide,
   (kerningSubtable_coverage_check [] (fun a => a) 0 0 14 3 [] []).1 (by decide)⟩

/-! ## Claim C2: allocator placements never overlap -/

theorem rectDisjoint_symm {r₁ r₂ : Rect} (h : RectDisjoint r₁ r₂) : RectDisjoint r₂ r₁ := by
  unfold RectDisjoint at h ⊢
  tauto

theorem tryPlace_spec {w h x y : Nat} {a a' : AreaAllocator}
    (hp : tryPlace w h a = some (x, y, a')) :
    (∀ r, cellInv a r → RectDisjoint r ⟨x, y, w, h⟩ ∧ cellInv a' r) ∧
    cellInv a' ⟨x, y, w, h⟩ := by
  unfold tryPlace at hp
  split at hp
  · simp only [Option.some.injEq, Prod.mk.injEq] at hp
    obtain ⟨hx, hy, ha⟩ := hp
    subst hx
    subst hy
    subst ha
    constructor
    · intro r hr
      simp only [cellInv, RectDisjoint, true_and, and_true, eq_self_iff_true] at hr ⊢
      rcases Nat.le_total a.rowHeight h with hmx | hmx
      · rw [max_eq_right hmx]
        omega
      · rw [max_eq_left hmx]
        omega
    · simp only [cellInv, true_and, and_true, eq_self_iff_true]
      rcases Nat.le_total a.rowHeight h with hmx | hmx
      · rw [max_eq_right hmx]
        omega
      · rw [max_eq_left hmx]
        omega
  · split at hp
    · simp only [Option.some.injEq, Prod.mk.injEq] at hp
      obtain ⟨hx, hy, ha⟩ := hp
      subst hx
      subst hy
      subst ha
      constructor
      · intro r hr
        simp only [cellInv, RectDisjoint, true_and, and_true, eq_self_iff_true] at hr ⊢
        omega
      · simp only [cellInv, true_and, and_true, eq_self_iff_true]
        omega
    · exact absurd hp (by simp)

theorem allocateAux_spec (w h : Nat) :
    ∀ (fuel : Nat) (a : AreaAllocator) (x y : Nat) (a' : AreaAllocator),
      allocateAux w h fuel a = some (x, y, a') →
      (∀ r, cellInv a r → RectDisjoint r ⟨x, y, w, h⟩ ∧ cellInv a' r) ∧
      cellInv a' ⟨x, y, w, h⟩
  | 0, a, x, y, a', hp => tryPlace_spec hp
  | fuel + 1, a, x, y, a', hp => by
    simp only [allocateAux] at hp
    split at hp
    · rename_i val heq
      rw [hp] at heq
      exact tryPlace_spec heq
    · split at hp
      · have hrec := allocateAux_spec w h fuel (growWidth a) x y a' hp
        exact ⟨fun r hr => hrec.1 r hr, hrec.2⟩
      · split at hp
        · have hrec := allocateAux_spec w h fuel (growHeight a) x y a' hp
          exact ⟨fun r hr => hrec.1 r hr, hrec.2⟩
        · exact absurd hp (by simp)

theorem allocate_spec {w h x y : Nat} {a a' : AreaAllocator}
    (hp : allocate w h a = some (x, y, a')) :
    (∀ r, cellInv a r → RectDisjoint r ⟨x, y, w, h⟩ ∧ cellInv a' r) ∧
    cellInv a' ⟨x, y, w, h⟩ :=
  allocateAux_spec w h _ a x y a' hp

theorem allocStep_inv (st : AreaAllocator × List Rect) (req : Nat × Nat)
    (h : AllocInv st) : AllocInv (allocStep st req) := by
  unfold allocStep
  split
  · rename_i x y a' heq
    obtain ⟨hspec, hnew⟩ := allocate_spec heq
    constructor
    · exact List.Pairwise.cons
        (fun r hr => rectDisjoint_symm (hspec r (h.2 r hr)).1) h.1
    · intro r hr
      rcases List.mem_cons.mp hr with rfl | hr
      · exact hnew
      · exact (hspec r (h.2 r hr)).2
  · exact h

theorem allocFold_inv :
    ∀ (reqs : List (Nat × Nat)) (st : AreaAllocator × List Rect),
      AllocInv st → AllocInv (reqs.foldl allocStep st)
  | [], _, h => h
  | req :: rest, st, h => allocFold_inv rest _ (allocStep_inv st req h)

/-- C2: for every sequence of Allocate requests against one allocator
instance started fresh on any canvas bounds, the successfully returned
rectangles are pairwise disjoint — no two placed glyphs ever overlap in
the same atlas page; in particular any two successive successful calls
return non-overlapping rectangles. -/
theorem allocRun_pairwise_disjoint (reqs : List (Nat × Nat))
    (w h maxW maxH : Nat) :
    ((allocRun reqs (AreaAllocator.init w h maxW maxH)).2).Pairwise RectDisjoint := by
  have hinv : AllocInv (AreaAllocator.init w h maxW maxH, []) := by
    constructor
    · exact List.Pairwise.nil
    · intro r hr
      exact absurd hr (List.not_mem_nil r)
  exact (allocFold_inv reqs (AreaAllocator.init w h maxW maxH, []) hinv).1

/-! ## Claim C1: classic LRU eviction -/

theorem nodup_rotate_last {A B₁ : List Nat} {b : Nat}
    (h : (A ++ (B₁ ++ [b])).Nodup) :
    ((b :: A) ++ B₁).Nodup ∧ b ∉ A ∧ b ∉ B₁ := by
  rw [show A ++ (B₁ ++ [b]) = (A ++ B₁) ++ b :: [] from by simp] at h
  rw [List.nodup_middle, List.append_nil, List.nodup_cons] at h
  refine ⟨?_, fun hm => h.1 (List.mem_append_left _ hm),
    fun hm => h.1 (List.mem_append_right _ hm)⟩
  rw [List.cons_append, List.nodup_cons]
  exact h

theorem erase_last_of_append {A B₁ : List Nat} {b : Nat}
    (hA : b ∉ A) (hB : b ∉ B₁) :
    (A ++ (B₁ ++ [b])).erase b = A ++ B₁ := by
  rw [List.erase_append_right _ hA, List.erase_append_right _ hB,
    List.erase_cons_head, List.append_nil]

theorem runRequests_nil (rast : Nat → Option RawMetrics) (s : TTFFaceState) :
    runRequests rast s [] = s := rfl

theorem runRequests_cons (rast : Nat → Option RawMetrics) (s : TTFFaceState)
    (c : Nat) (cs : List Nat) :
    runRequests rast s (c :: cs) =
      runRequests rast (ttfGetGlyph rast s c).2.1 cs := rfl

theorem runRequests_append (rast : Nat → Option RawMetrics) (s : TTFFaceState)
    (l₁ l₂ : List Nat) :
    runRequests rast s (l₁ ++ l₂) = runRequests rast (runRequests rast s l₁) l₂ :=
  List.foldl_append _ _ _ _

theorem runRequests_fillFresh (rast : Nat → Option RawMetrics) :
    ∀ (cs : List Nat) (s : TTFFaceState) (A B : List Nat),
      s.order = A ++ B → (A ++ B).Nodup → cs.Nodup → cs.length ≤ B.length →
      (∀ c ∈ cs, 127 < c ∧ lookupAssoc s.mutableMapping c = none ∧
        (rast c).isSome = true) →
      (∀ i ∈ B, (s.cells i).charCode = 0) →
      (runRequests rast s cs).order =
          B.drop (B.length - cs.length) ++ A ++ B.take (B.length - cs.length) ∧
      (runRequests rast s cs).mutableMapping =
          cs.reverse.zip (B.drop (B.length - cs.length)) ++ s.mutableMapping ∧
      (runRequests rast s cs).glyphMapping = s.glyphMapping ∧
      (∀ i, i ∉ B.drop (B.length - cs.length) →
        (runRequests rast s cs).cells i = s.cells i) ∧
      (∀ p ∈ cs.reverse.zip (B.drop (B.length - cs.length)),
        ((runRequests rast s cs).cells p.2).charCode = p.1)
  | [], s, A, B, hord, _, _, _, _, _ => by
    rw [runRequests_nil]
    refine ⟨?_, ?_, rfl, fun i _ => rfl, ?_⟩
    · rw [List.length_nil, Nat.sub_zero, List.drop_length, List.take_length,
        List.nil_append, hord]
    · rw [List.length_nil, Nat.sub_zero, List.drop_length, List.reverse_nil]
      rfl
    · intro p hp
      rw [List.length_nil, Nat.sub_zero, List.drop_length, List.reverse_nil] at hp
      exact absurd hp (by simp)
  | c :: cs', s, A, B, hord, hnd, hcnd, hlen, hc, hcells => by
    have hBsplit : ∃ B₁ b, B = B₁ ++ [b] := by
      rcases List.eq_nil_or_concat B with h | ⟨L, x, h⟩
      · subst h
        simp at hlen
      · exact ⟨L, x, by simpa [List.concat_eq_append] using h⟩
    obtain ⟨B₁, b, rfl⟩ := hBsplit
    obtain ⟨hc127, hcnone, hcsome⟩ := hc c (List.mem_cons_self c cs')
    obtain ⟨m, hm⟩ := Option.isSome_iff_exists.mp hcsome
    have hoe : ¬ s.order = [] := by
      rw [hord]
      simp
    have hlast : s.order.getLastD 0 = b := by
      rw [hord, ← List.append_assoc, List.getLastD_concat]
    obtain ⟨hnd', hbA, hbB⟩ := nodup_rotate_last hnd
    have hbchar : (s.cells b).charCode = 0 := hcells b (by simp)
    obtain ⟨g, hgc, hgx, hgy, hstep⟩ := ttfGetGlyph_miss rast s c m hoe hc127 hcnone hm
    rw [hlast] at hstep
    rw [show (if (s.cells b).charCode ≠ 0 then
          eraseKey (s.cells b).charCode s.mutableMapping
        else s.mutableMapping) = s.mutableMapping from by simp [hbchar]] at hstep
    rw [show moveFront b s.order = (b :: A) ++ B₁ from by
      rw [hord]
      unfold moveFront
      rw [erase_last_of_append hbA hbB, List.cons_append]] at hstep
    rw [show insertAssoc c b s.mutableMapping = (c, b) :: s.mutableMapping from by
      unfold insertAssoc
      rw [eraseKey_of_lookup_none hcnone]] at hstep
    have hcs'len : cs'.length ≤ B₁.length := by
      rw [List.length_cons] at hlen
      rw [List.length_append, List.length_singleton] at hlen
      omega
    have hd : (B₁ ++ [b]).length - (c :: cs').length = B₁.length - cs'.length := by
      rw [List.length_cons, List.length_append, List.length_singleton]
      omega
    have hddrop : (B₁ ++ [b]).drop (B₁.length - cs'.length) =
        B₁.drop (B₁.length - cs'.length) ++ [b] :=
      List.drop_append_of_le_length (by omega)
    have hdtake : (B₁ ++ [b]).take (B₁.length - cs'.length) =
        B₁.take (B₁.length - cs'.length) :=
      List.take_append_of_le_length (by omega)
    have hziplen : cs'.reverse.length = (B₁.drop (B₁.length - cs'.length)).length := by
      rw [List.length_reverse, List.length_drop]
      omega
    have hzipsplit : (c :: cs').reverse.zip ((B₁ ++ [b]).drop (B₁.length - cs'.length)) =
        cs'.reverse.zip (B₁.drop (B₁.length - cs'.length)) ++ [(c, b)] := by
      rw [hddrop, List.reverse_cons, List.zip_append hziplen]
      rfl
    have ih := runRequests_fillFresh rast cs'
      { s with order := (b :: A) ++ B₁,
               mutableMapping := (c, b) :: s.mutableMapping,
               cells := updFun s.cells b g,
               uploads := ((s.cells b).x, (s.cells b).y, c) :: s.uploads }
      (b :: A) B₁ rfl hnd' (List.Nodup.of_cons hcnd) hcs'len
      (by
        intro c' hc'
        obtain ⟨h1, h2, h3⟩ := hc c' (List.mem_cons_of_mem c hc')
        refine ⟨h1, ?_, h3⟩
        show lookupAssoc ((c, b) :: s.mutableMapping) c' = none
        rw [lookupAssoc_cons]
        rw [if_neg (fun hcc => (List.nodup_cons.mp hcnd).1 (by
          rw [hcc]
          exact hc'))]
        exact h2)
      (by
        intro i hi
        show (updFun s.cells b g i).charCode = 0
        rw [updFun_ne s.cells g (fun hib => hbB (by
          rw [← hib]
          exact hi))]
        exact hcells i (List.mem_append_left _ hi))
    rw [runRequests_cons, hstep] at *
    refine ⟨?_, ?_, ?_, ?_, ?_⟩
    · rw [hd, hddrop, hdtake, ih.1]
      simp only [List.append_assoc, List.cons_append, List.singleton_append,
        List.nil_append]
    · rw [hd, hzipsplit, ih.2.1]
      simp only [List.append_assoc, List.singleton_append]
    · exact ih.2.2.1
    · intro i hi
      rw [hd, hddrop] at hi
      have hi1 : i ∉ B₁.drop (B₁.length - cs'.length) :=
        fun hmem => hi (List.mem_append_left _ hmem)
      have hib : i ≠ b := fun hib => hi (by simp [hib])
      rw [ih.2.2.2.1 i hi1]
      exact updFun_ne s.cells g hib
    · intro p hp
      rw [hd, hzipsplit] at hp
      rcases List.mem_append.mp hp with hp1 | hp2
      · exact ih.2.2.2.2 p hp1
      · have hpe : p = (c, b) := by simpa using hp2
        subst hpe
        have hb1 : b ∉ B₁.drop (B₁.length - cs'.length) :=
          fun hmem => hbB (List.mem_of_mem_drop hmem)
        rw [ih.2.2.2.1 b hb1]
        show (updFun s.cells b g b).charCode = c
        rw [updFun_same]
        exact hgc

/-- C1: on a fresh dynamic cache of `n` cells, requesting `n + 1`
distinct character codes (all above the eager low range, all renderable)
in sequence evicts exactly the first code: afterwards the first code is
no longer mapped, every other requested code is still mapped, the last
code occupies the cell that was the tail of the fresh LRU order (the
least-recently-used cell that held the first code), that cell is at the
head of the order, and re-requesting the first code is a miss that
performs one rasterization and returns a refreshed glyph. -/
theorem dynamicCache_lru_evicts_first (rast : Nat → Option RawMetrics)
    (s : TTFFaceState) (n : Nat) (c0 cN : Nat) (mid : List Nat)
    (hfresh : IsFreshCache s n) (hn : 0 < n)
    (hnd : (c0 :: (mid ++ [cN])).Nodup)
    (hlen : (c0 :: (mid ++ [cN])).length = n + 1)
    (hok : ∀ c ∈ c0 :: (mid ++ [cN]), 127 < c ∧ (rast c).isSome = true) :
    lookupAssoc (runRequests rast s (c0 :: (mid ++ [cN]))).mutableMapping c0 = none ∧
    (∀ c ∈ mid,
      (lookupAssoc (runRequests rast s (c0 :: (mid ++ [cN]))).mutableMapping c).isSome
        = true) ∧
    lookupAssoc (runRequests rast s (c0 :: (mid ++ [cN]))).mutableMapping cN =
      some (s.order.getLastD 0) ∧
    (runRequests rast s (c0 :: (mid ++ [cN]))).order.head? =
      some (s.order.getLastD 0) ∧
    (ttfGetGlyph rast (runRequests rast s (c0 :: (mid ++ [cN]))) c0).2.2 = 1 ∧
    ((ttfGetGlyph rast (runRequests rast s (c0 :: (mid ++ [cN]))) c0).1).isSome
      = true := by
  obtain ⟨hndO, hlenO, hmm0, hch0⟩ := hfresh
  have hmidlen : mid.length = n - 1 := by
    simp only [List.length_cons, List.length_append, List.length_singleton,
      List.length_nil] at hlen
    omega
  have hndmid : c0 ∉ mid ∧ cN ∉ mid ∧ c0 ≠ cN ∧ mid.Nodup := by
    rw [List.nodup_cons, List.nodup_append] at hnd
    refine ⟨fun hm => hnd.1 (List.mem_append_left _ hm), ?_, ?_, hnd.2.1⟩
    · intro hm
      exact (List.disjoint_left.mp hnd.2.2.2 hm) (List.mem_singleton_self cN)
    · intro he
      exact hnd.1 (List.mem_append_right _ (he ▸ List.mem_singleton_self cN))
  obtain ⟨hc0mid, hcNmid, hc0cN, hmidnd⟩ := hndmid
  have hok0 := hok c0 (List.mem_cons_self _ _)
  have hokN := hok cN (List.mem_cons_of_mem _ (List.mem_append_right _
    (List.mem_singleton_self cN)))
  -- phase 1: the first n requests fill every cell
  have ih1 := runRequests_fillFresh rast (c0 :: mid) s [] s.order rfl
    (by simpa using hndO)
    (by
      rw [List.nodup_cons]
      exact ⟨hc0mid, hmidnd⟩)
    (by
      rw [List.length_cons, hlenO]
      omega)
    (by
      intro c hc
      rw [hmm0]
      rcases List.mem_cons.mp hc with rfl | hc
      · exact ⟨hok0.1, rfl, hok0.2⟩
      · have := hok c (List.mem_cons_of_mem _ (List.mem_append_left _ hc))
        exact ⟨this.1, rfl, this.2⟩)
    hch0
  have hdzero : s.order.length - (c0 :: mid).length = 0 := by
    rw [hlenO, List.length_cons]
    omega
  rw [hdzero] at ih1
  simp only [List.drop_zero, List.take_zero, List.append_nil, List.nil_append,
    List.reverse_cons, hmm0] at ih1
  -- name the state after phase 1
  have hrun1 : runRequests rast s ((c0 :: mid) ++ [cN]) =
      runRequests rast (runRequests rast s (c0 :: mid)) [cN] :=
    runRequests_append rast s (c0 :: mid) [cN]
  -- split the fresh order at its tail cell
  have hBsplit : ∃ L bb, s.order = L ++ [bb] := by
    rcases List.eq_nil_or_concat s.order with h | ⟨L, x, h⟩
    · rw [h, List.length_nil] at hlenO
      omega
    · exact ⟨L, x, by simpa [List.concat_eq_append] using h⟩
  obtain ⟨L, bb, hLbb⟩ := hBsplit
  have hlast : s.order.getLastD 0 = bb := by
    rw [hLbb, List.getLastD_concat]
  have hLlen : mid.reverse.length = L.length := by
    have : L.length + 1 = n := by
      rw [← hlenO, hLbb, List.length_append, List.length_singleton]
    rw [List.length_reverse]
    omega
  have hzip1 : (mid.reverse ++ [c0]).zip s.order =
      mid.reverse.zip L ++ [(c0, bb)] := by
    rw [hLbb, List.zip_append hLlen]
    rfl
  rw [hzip1] at ih1
  -- phase 2: the (n+1)-st request evicts the tail cell holding c0
  have hmm1 : (runRequests rast s (c0 :: mid)).mutableMapping =
      mid.reverse.zip L ++ [(c0, bb)] := ih1.2.1
  have hord1 : (runRequests rast s (c0 :: mid)).order = s.order := by
    rw [ih1.1]
  have hcellbb : ((runRequests rast s (c0 :: mid)).cells bb).charCode = c0 :=
    ih1.2.2.2.2 (c0, bb) (List.mem_append_right _ (List.mem_singleton_self _))
  have hlkN : lookupAssoc (runRequests rast s (c0 :: mid)).mutableMapping cN
      = none := by
    rw [hmm1, ← hzip1]
    refine lookupAssoc_zip_none _ _ ?_
    intro hm
    rcases List.mem_append.mp hm with hm | hm
    · exact hcNmid (List.mem_reverse.mp hm)
    · exact hc0cN (List.mem_singleton.mp hm).symm
  have ho1 : ¬ (runRequests rast s (c0 :: mid)).order = [] := by
    rw [hord1, hLbb]
    simp
  obtain ⟨mN, hmN⟩ := Option.isSome_iff_exists.mp hokN.2
  obtain ⟨g2, hg2c, hg2x, hg2y, hstep2⟩ :=
    ttfGetGlyph_miss rast (runRequests rast s (c0 :: mid)) cN mN ho1 hokN.1 hlkN hmN
  rw [show (runRequests rast s (c0 :: mid)).order.getLastD 0 = bb from by
    rw [hord1, hlast]] at hstep2
  rw [hcellbb] at hstep2
  rw [if_pos (show c0 ≠ 0 by omega)] at hstep2
  have hrunfull : runRequests rast s (c0 :: (mid ++ [cN])) =
      (ttfGetGlyph rast (runRequests rast s (c0 :: mid)) cN).2.1 := by
    rw [show c0 :: (mid ++ [cN]) = (c0 :: mid) ++ [cN] from rfl, hrun1,
      runRequests_cons, runRequests_nil]
  rw [hstep2] at hrunfull
  rw [hrunfull]
  dsimp only
  -- the final state facts
  have hmm2 : ∀ j : Nat, j ≠ cN →
      lookupAssoc (insertAssoc cN bb
        (eraseKey c0 (runRequests rast s (c0 :: mid)).mutableMapping)) j =
      if j = c0 then none
      else lookupAssoc (runRequests rast s (c0 :: mid)).mutableMapping j := by
    intro j hj
    rw [lookupAssoc_insertAssoc_ne bb _ (fun he => hj he.symm),
      lookupAssoc_eraseKey]
  refine ⟨?_, ?_, ?_, ?_, ?_, ?_⟩
  · rw [hmm2 c0 hc0cN, if_pos rfl]
  · intro c hcm
    have hccN : c ≠ cN := fun he => hcNmid (he ▸ hcm)
    have hcc0 : c ≠ c0 := fun he => hc0mid (he ▸ hcm)
    rw [hmm2 c hccN, if_neg hcc0, hmm1, ← hzip1]
    refine lookupAssoc_zip_isSome _ _ (List.mem_append_left _
      (List.mem_reverse.mpr hcm)) ?_
    rw [List.length_append, List.length_reverse, List.length_singleton, hlenO]
    omega
  · rw [hlast]
    exact lookupAssoc_insertAssoc_self _ _ _
  · rw [hlast]
    simp [moveFront]
  · -- re-requesting c0 misses and rasterizes
    obtain ⟨m0, hm0⟩ := Option.isSome_iff_exists.mp hok0.2
    have hlk0 : lookupAssoc (insertAssoc cN bb
        (eraseKey c0 (runRequests rast s (c0 :: mid)).mutableMapping)) c0 = none := by
      rw [hmm2 c0 hc0cN, if_pos rfl]
    obtain ⟨g3, _, _, _, hstep3⟩ := ttfGetGlyph_miss rast
      { runRequests rast s (c0 :: mid) with
          order := moveFront bb (runRequests rast s (c0 :: mid)).order,
          mutableMapping := insertAssoc cN bb
            (eraseKey c0 (runRequests rast s (c0 :: mid)).mutableMapping),
          cells := updFun (runRequests rast s (c0 :: mid)).cells bb g2,
          uploads := (((runRequests rast s (c0 :: mid)).cells bb).x,
                      ((runRequests rast s (c0 :: mid)).cells bb).y, cN)
            :: (runRequests rast s (c0 :: mid)).uploads }
      c0 m0 (by simp [moveFront]) hok0.1 hlk0 hm0
    rw [hstep3]
  · obtain ⟨m0, hm0⟩ := Option.isSome_iff_exists.mp hok0.2
    have hlk0 : lookupAssoc (insertAssoc cN bb
        (eraseKey c0 (runRequests rast s (c0 :: mid)).mutableMapping)) c0 = none := by
      rw [hmm2 c0 hc0cN, if_pos rfl]
    obtain ⟨g3, _, _, _, hstep3⟩ := ttfGetGlyph_miss rast
      { runRequests rast s (c0 :: mid) with
          order := moveFront bb (runRequests rast s (c0 :: mid)).order,
          mutableMapping := insertAssoc cN bb
            (eraseKey c0 (runRequests rast s (c0 :: mid)).mutableMapping),
          cells := updFun (runRequests rast s (c0 :: mid)).cells bb g2,
          uploads := (((runRequests rast s (c0 :: mid)).cells bb).x,
                      ((runRequests rast s (c0 :: mid)).cells bb).y, cN)
            :: (runRequests rast s (c0 :: mid)).uploads }
      c0 m0 (by simp [moveFront]) hok0.1 hlk0 hm0
    rw [hstep3]
    rfl

/-- C1 witness: the LRU eviction theorem at a concrete fresh two-cell
cache with the request sequence 200, 300, 400. -/
theorem dynamicCache_lru_evicts_first_witness :
    (IsFreshCache sampleFreshState 2 ∧ 0 < 2 ∧
      (200 :: (([300] : List Nat) ++ [400])).Nodup ∧
      (200 :: (([300] : List Nat) ++ [400])).length = 2 + 1 ∧
      (∀ c ∈ 200 :: (([300] : List Nat) ++ [400]),
        127 < c ∧ (sampleRast c).isSome = true)) ∧
    (lookupAssoc (runRequests sampleRast sampleFreshState
        (200 :: ([300] ++ [400]))).mutableMapping 200 = none ∧
     (∀ c ∈ ([300] : List Nat),
       (lookupAssoc (runRequests sampleRast sampleFreshState
         (200 :: ([300] ++ [400]))).mutableMapping c).isSome = true) ∧
     lookupAssoc (runRequests sampleRast sampleFreshState
         (200 :: ([300] ++ [400]))).mutableMapping 400 =
       some (sampleFreshState.order.getLastD 0) ∧
     (runRequests sampleRast sampleFreshState
         (200 :: ([300] ++ [400]))).order.head? =
       some (sampleFreshState.order.getLastD 0) ∧
     (ttfGetGlyph sampleRast (runRequests sampleRast sampleFreshState
         (200 :: ([300] ++ [400]))) 200).2.2 = 1 ∧
     ((ttfGetGlyph sampleRast (runRequests sampleRast sampleFreshState
         (200 :: ([300] ++ [400]))) 200).1).isSome = true) :=
  ⟨⟨by unfold IsFreshCache; decide, by decide, by decide, by decide, by decide⟩,
   dynamicCache_lru_evicts_first sampleRast sampleFreshState 2 200 400 [300]
     (by unfold IsFreshCache; decide) (by decide) (by decide) (by decide)
     (by decide)⟩

end UrhoFont
